import Mathlib

/-!
# Signage player: fetch / cache / offline-fallback subsystem

A shallow embedding of `server.js` (configuration coercion, media URL
hydration, event ordering, the cache snapshot with its refresh step, the
health check) and of `scripts/configure-api-key.js` (`upsertEnvVar`),
followed by the properties proved about them.

Conventions of the embedding.

* JavaScript numbers that the program compares or counts with are integer
  valued and far below `2 ^ 53`, where double arithmetic is exact; they are
  `Int` or `Nat` here.  The only place where a non-integer or non-finite
  number can enter is the parsed configuration, modelled by `JsNumber`.
* A timestamp is the number of milliseconds since the epoch.  The program
  keeps it as the ISO string of `new Date().toISOString()` and reads it back
  with `new Date(s).getTime()`, which returns the same millisecond count.
* Strings are `String`; the operations used on them are written over their
  character lists.
-/

namespace Signage

/-! ## Configuration (server.js, lines 24-82) -/

/-- A JavaScript number as `parseInt` or any other source may produce it. -/
inductive JsNumber where
  | nan
  | posInf
  | negInf
  | finite (q : ℚ)
  deriving DecidableEq

/-- The test `Number.isFinite(value)`. -/
def JsNumber.isFinite : JsNumber → Bool
  | .finite _ => true
  | _ => false

/-- The function `Math.floor` (the identity on NaN and on the infinities). -/
def JsNumber.floor : JsNumber → JsNumber
  | .finite q => .finite (⌊q⌋ : Int)
  | v => v

/-- The comparison `numeric < minimum` of JavaScript: false when `numeric`
is NaN. -/
def JsNumber.ltInt : JsNumber → Int → Bool
  | .finite q, m => decide (q < (m : ℚ))
  | .negInf, _ => true
  | _, _ => false

/-- The function `coerceInteger(value, fallback, label, minimum)`; the label
only appears in the warning that is logged, and every call of the program
passes the minimum. -/
def coerceInteger (value : JsNumber) (fallback : JsNumber) (minimum : Int) : JsNumber :=
  let numeric : JsNumber := if value.isFinite then value.floor else JsNumber.nan
  if !numeric.isFinite || numeric.ltInt minimum then fallback else numeric

/-- The object `config`: the numeric fields hold whatever `parseInt`
returned for the environment input. -/
structure Config where
  port : JsNumber
  controllerBaseUrl : String
  controllerApiKey : Option String
  venueSlug : Option String
  fetchIntervalS : JsNumber
  displayRotationS : JsNumber
  maxEventsDisplay : JsNumber
  offlineRetentionHours : JsNumber
  deriving DecidableEq

/-- The part of a parsed `URL` object that `validateConfiguration` reads. -/
structure ParsedUrl where
  protocol : String
  href : String
  deriving DecidableEq

/-- White space in the sense of `String.prototype.trim`. -/
def isJsWhitespace (c : Char) : Bool :=
  c.val = 0x09 || c.val = 0x0A || c.val = 0x0B || c.val = 0x0C || c.val = 0x0D ||
  c.val = 0x20 || c.val = 0xA0 || c.val = 0x1680 ||
  (decide (0x2000 ≤ c.val) && decide (c.val ≤ 0x200A)) ||
  c.val = 0x2028 || c.val = 0x2029 || c.val = 0x202F || c.val = 0x205F ||
  c.val = 0x3000 || c.val = 0xFEFF

/-- The method `String.prototype.trim`. -/
def jsTrim (s : String) : String :=
  ⟨((s.data.dropWhile isJsWhitespace).reverse.dropWhile isJsWhitespace).reverse⟩

/-- The function `sanitizeUrlTrailingSlash`: `urlString.replace(/\/+$/, '')`. -/
def sanitizeUrlTrailingSlash (urlString : String) : String :=
  ⟨(urlString.data.reverse.dropWhile (fun c => c == '/')).reverse⟩

/-- The function `validateConfiguration`; `none` stands for `process.exit(1)`.
The constructor `new URL(...)` is the parameter `parseUrl` (`none` when it
throws). -/
def validateConfiguration (parseUrl : String → Option ParsedUrl) (config : Config) :
    Option Config :=
  let rawBaseUrl := jsTrim config.controllerBaseUrl
  if rawBaseUrl = "" ∨ rawBaseUrl = "https://displays.example.com" then none
  else
    match parseUrl rawBaseUrl with
    | none => none
    | some parsedBaseUrl =>
      if ¬ (parsedBaseUrl.protocol = "http:" ∨ parsedBaseUrl.protocol = "https:") then none
      else
        some
          { controllerBaseUrl := sanitizeUrlTrailingSlash parsedBaseUrl.href
            controllerApiKey :=
              match config.controllerApiKey with
              | some key => if (jsTrim key).length > 0 then some (jsTrim key) else none
              | none => none
            venueSlug := config.venueSlug
            fetchIntervalS := coerceInteger config.fetchIntervalS (.finite 60) 15
            displayRotationS := coerceInteger config.displayRotationS (.finite 10) 5
            maxEventsDisplay := coerceInteger config.maxEventsDisplay (.finite 6) 1
            offlineRetentionHours := coerceInteger config.offlineRetentionHours (.finite 24) 1
            port := coerceInteger config.port (.finite 3000) 1 }

/-! ## Events and their normalisation (server.js, lines 99-124) -/

/-- The properties of an event other than `imageUrl` and `startDatetime`:
property name and the JSON text of its value. -/
abbrev Fields := List (String × String)

/-- An element of a decoded events payload on which the normalisation runs
to completion.
* `imageUrl` is `none` when the property is absent or `null`, and the string
  otherwise (possibly empty).
* `startDatetime` is the time value of `new Date(event.startDatetime)`:
  milliseconds since the epoch, or `none` when the date is invalid, in which
  case JavaScript computes with NaN. -/
structure Event where
  imageUrl : Option String
  startDatetime : Option Int
  rest : Fields
  deriving DecidableEq

/-- The method `String.prototype.startsWith` at position 0. -/
def startsWith (s pre : String) : Bool :=
  pre.data.isPrefixOf s.data

/-- The callback of `events.map` in `hydrateMediaUrls`. -/
def hydrateEvent (controllerBaseUrl : String) (event : Event) : Event :=
  match event.imageUrl with
  | some url =>
    if url ≠ "" ∧ startsWith url "/uploads/" = true then
      { event with imageUrl := some (controllerBaseUrl ++ url) }
    else event
  | none => event

/-- The function `hydrateMediaUrls`. -/
def hydrateMediaUrls (controllerBaseUrl : String) (events : List Event) : List Event :=
  events.map (hydrateEvent controllerBaseUrl)

/-- The subtraction `dateA - dateB` of two `Date` objects: `none` is NaN. -/
def dateDiff (dateA dateB : Option Int) : Option Int :=
  match dateA, dateB with
  | some a, some b => some (a - b)
  | _, _ => none

/-- The abstract operation `SortCompare` of `Array.prototype.sort` for
defined elements: a comparator result that is NaN counts as `+0`. -/
def sortCompare {α : Type} (comparefn : α → α → Option Int) (x y : α) : Int :=
  (comparefn x y).getD 0

/-! ### `Array.prototype.sort`

The program runs on Node.js, whose engine V8 sorts with TimSort
(`third_party/v8/builtins/array-sort.tq`): it finds the run that starts the
unsorted part, reverses it when it strictly descends, extends it to the
minimum run length by binary insertion, and merges the runs on a stack,
galloping when one run keeps winning.  An array shorter than 64 elements is
one run.  The definitions below are written after the macros of that file,
one definition per macro or loop, with every loop unrolled by a fuel that its
bounds never exhaust.  The elements are
decoded JSON values, never `undefined`, so the pass that moves `undefined`
to the end has nothing to do.  With a consistent comparator the outcome is
the one stable ordering, whereas a comparator that answers NaN makes it depend on
which pairs are compared, which is why the algorithm is spelled out. -/

/-- Element `i` of an array; `d` stands in outside its bounds. -/
def elemAt {α : Type} (arr : List α) (i : Int) (d : α) : α :=
  if i < 0 then d else arr.getD i.toNat d

/-- The assignment `arr[i] = x`. -/
def setAt {α : Type} (arr : List α) (i : Int) (x : α) : List α :=
  if i < 0 then arr else arr.set i.toNat x

/-- The macro `Copy(source, srcPos, target, dstPos, length)`: the elements
are read before any is written, as with `memmove`. -/
def copyRange {α : Type} (source : List α) (srcPos : Int) (target : List α) (dstPos : Int)
    (length : Int) : List α :=
  target.take dstPos.toNat ++ (source.drop srcPos.toNat).take length.toNat ++
    target.drop (dstPos.toNat + length.toNat)

/-- The macro `ComputeMinRunLength`, its loop unrolled by `fuel`. -/
def minRunLoop : Nat → Nat → Nat → Nat
  | 0, n, r => n + r
  | fuel + 1, n, r => if 64 ≤ n then minRunLoop fuel (n / 2) (r ||| (n % 2)) else n + r

/-- The macro `ComputeMinRunLength`. -/
def computeMinRunLength (n : Nat) : Nat :=
  minRunLoop n n 0

/-- The loop of `CountAndMakeRun`: how many elements from index `idx` on
continue the run that ends in `previousElement`. -/
def runExtend {α : Type} (cmp : α → α → Int) (isDescending : Bool) (work : List α) (d : α) :
    Nat → Int → α → Int
  | 0, _, _ => 0
  | fuel + 1, idx, previousElement =>
    let currentElement := elemAt work idx d
    let order := cmp currentElement previousElement
    if isDescending then
      if 0 ≤ order then 0
      else 1 + runExtend cmp isDescending work d fuel (idx + 1) currentElement
    else
      if order < 0 then 0
      else 1 + runExtend cmp isDescending work d fuel (idx + 1) currentElement

/-- The macro `ReverseRange(array, from, to)`. -/
def reverseRange {α : Type} (arr : List α) (lo hi : Int) : List α :=
  arr.take lo.toNat ++ ((arr.drop lo.toNat).take (hi - lo).toNat).reverse ++ arr.drop hi.toNat

/-- The macro `CountAndMakeRun(lowArg, high)`: the length of the run that
starts at `lowArg`, and the array with that run reversed when it descends. -/
def countAndMakeRun {α : Type} (cmp : α → α → Int) (work : List α) (d : α)
    (lowArg high : Int) : List α × Int :=
  let low := lowArg + 1
  if low = high then (work, 1)
  else
    let elementLow := elemAt work low d
    let elementHigh := elemAt work (low - 1) d
    let order := cmp elementLow elementHigh
    let isDescending : Bool := decide (order < 0)
    let runLength := 2 + runExtend cmp isDescending work d (high - (low + 1)).toNat (low + 1)
      elementLow
    if isDescending then (reverseRange work lowArg (lowArg + runLength), runLength)
    else (work, runLength)

/-- The binary search of `BinaryInsertionSort`. -/
def insertionPoint {α : Type} (cmp : α → α → Int) (work : List α) (d : α) (pivot : α) :
    Nat → Int → Int → Int
  | 0, left, _ => left
  | fuel + 1, left, right =>
    if left < right then
      let mid := left + (right - left) / 2
      let order := cmp pivot (elemAt work mid d)
      if order < 0 then insertionPoint cmp work d pivot fuel left mid
      else insertionPoint cmp work d pivot fuel (mid + 1) right
    else left

/-- The outer loop of `BinaryInsertionSort`. -/
def insertionLoop {α : Type} (cmp : α → α → Int) (d : α) (low high : Int) :
    Nat → Int → List α → List α
  | 0, _, work => work
  | fuel + 1, start, work =>
    if start < high then
      let pivot := elemAt work start d
      let left := insertionPoint cmp work d pivot ((start - low).toNat + 1) low start
      let work := setAt (copyRange work left work (left + 1) (start - left)) left pivot
      insertionLoop cmp d low high fuel (start + 1) work
    else work

/-- The macro `BinaryInsertionSort(low, startArg, high)`. -/
def binaryInsertionSort {α : Type} (cmp : α → α → Int) (work : List α) (d : α)
    (low startArg high : Int) : List α :=
  let start := if low = startArg then startArg + 1 else startArg
  insertionLoop cmp d low high (high - start).toNat start work

/-- The galloping loops of `GallopLeft` and `GallopRight`: `offset` doubles
while it is below `maxOfs` and `continues offset` holds. -/
def gallopScan (continues : Int → Bool) (maxOfs : Int) : Nat → Int → Int → Int × Int
  | 0, lastOfs, offset => (lastOfs, offset)
  | fuel + 1, lastOfs, offset =>
    if offset < maxOfs then
      if continues offset then
        let next := offset * 2 + 1
        let next := if next ≤ 0 then maxOfs else next
        gallopScan continues maxOfs fuel offset next
      else (lastOfs, offset)
    else (lastOfs, offset)

/-- The closing binary search of `GallopLeft` and `GallopRight`. -/
def gallopBisect (goesRight : Int → Bool) : Nat → Int → Int → Int
  | 0, _, offset => offset
  | fuel + 1, lastOfs, offset =>
    if lastOfs < offset then
      let m := lastOfs + (offset - lastOfs) / 2
      if goesRight m then gallopBisect goesRight fuel (m + 1) offset
      else gallopBisect goesRight fuel lastOfs m
    else offset

/-- The builtin `GallopLeft(array, key, base, length, hint)`. -/
def gallopLeft {α : Type} (cmp : α → α → Int) (array : List α) (d : α) (key : α)
    (base length hint : Int) : Int :=
  let fuel := length.toNat + 2
  let order := cmp (elemAt array (base + hint) d) key
  let bounds : Int × Int :=
    if order < 0 then
      let maxOfs := length - hint
      let r := gallopScan (fun offset => decide (cmp (elemAt array (base + hint + offset) d) key < 0))
        maxOfs fuel 0 1
      let offset := if r.2 > maxOfs then maxOfs else r.2
      (r.1 + hint, offset + hint)
    else
      let maxOfs := hint + 1
      let r := gallopScan
        (fun offset => !decide (cmp (elemAt array (base + hint - offset) d) key < 0))
        maxOfs fuel 0 1
      let offset := if r.2 > maxOfs then maxOfs else r.2
      (hint - offset, hint - r.1)
  gallopBisect (fun m => decide (cmp (elemAt array (base + m) d) key < 0)) fuel
    (bounds.1 + 1) bounds.2

/-- The builtin `GallopRight(array, key, base, length, hint)`. -/
def gallopRight {α : Type} (cmp : α → α → Int) (array : List α) (d : α) (key : α)
    (base length hint : Int) : Int :=
  let fuel := length.toNat + 2
  let order := cmp key (elemAt array (base + hint) d)
  let bounds : Int × Int :=
    if order < 0 then
      let maxOfs := hint + 1
      let r := gallopScan (fun offset => decide (cmp key (elemAt array (base + hint - offset) d) < 0))
        maxOfs fuel 0 1
      let offset := if r.2 > maxOfs then maxOfs else r.2
      (hint - offset, hint - r.1)
    else
      let maxOfs := length - hint
      let r := gallopScan
        (fun offset => !decide (cmp key (elemAt array (base + hint + offset) d) < 0))
        maxOfs fuel 0 1
      let offset := if r.2 > maxOfs then maxOfs else r.2
      (r.1 + hint, offset + hint)
  gallopBisect (fun m => !decide (cmp key (elemAt array (base + m) d) < 0)) fuel
    (bounds.1 + 1) bounds.2

/-- The constant `kMinGallopWins`. -/
def kMinGallopWins : Int := 7

/-- The variables of `MergeLow` and `MergeHigh`; `cursor` is `cursorB` in the
first and `cursorA` in the second, `stored` is `sortState.minGallop`. -/
structure MergeState (α : Type) where
  work : List α
  dest : Int
  cursorTemp : Int
  cursor : Int
  lengthA : Int
  lengthB : Int
  minGallop : Int
  stored : Int
  nofWinsA : Int
  nofWinsB : Int
  galloping : Bool

/-- One iteration of a merge loop: the merge is over, with the array and
`sortState.minGallop`, or it goes on. -/
inductive MergeStep (α : Type) where
  | done (work : List α) (stored : Int)
  | next (state : MergeState α)

/-- The label `Succeed` of `MergeLow`. -/
def succeedLow {α : Type} (temp : List α) (s : MergeState α) : MergeStep α :=
  .done (if 0 < s.lengthA then copyRange temp s.cursorTemp s.work s.dest s.lengthA else s.work)
    s.stored

/-- The label `CopyB` of `MergeLow`. -/
def copyB {α : Type} (temp : List α) (d : α) (s : MergeState α) : MergeStep α :=
  .done (setAt (copyRange s.work s.cursor s.work s.dest s.lengthB) (s.dest + s.lengthB)
    (elemAt temp s.cursorTemp d)) s.stored

/-- The end of an iteration of the galloping loop: it goes on while one side
won at least `kMinGallopWins` times, and otherwise hands back to the plain
loop with `minGallop` raised. -/
def gallopNext {α : Type} (s : MergeState α) : MergeStep α :=
  if kMinGallopWins ≤ s.nofWinsA ∨ kMinGallopWins ≤ s.nofWinsB then .next s
  else
    .next { s with minGallop := s.minGallop + 1, stored := s.minGallop + 1,
                   nofWinsA := 0, nofWinsB := 0, galloping := false }

/-- The rest of an iteration when the part before it has not left the merge. -/
def MergeStep.andThen {α : Type} (r : MergeStep α) (rest : MergeState α → MergeStep α) :
    MergeStep α :=
  match r with
  | .done work stored => .done work stored
  | .next s => rest s

/-- The break out of the plain loop once a side has won `minGallop` times in
a row: `minGallop` goes up by one and the galloping loop starts. -/
def plainNext {α : Type} (wins : Int) (s : MergeState α) : MergeStep α :=
  if s.minGallop ≤ wins then .next { s with minGallop := s.minGallop + 1, galloping := true }
  else .next s

/-- The galloping loop of `MergeLow`, first part: `minGallop` goes down,
`GallopRight` counts the elements of run A that come before the next element
of run B, and they are copied. -/
def gallopLowA {α : Type} (cmp : α → α → Int) (temp : List α) (d : α) (s : MergeState α) :
    MergeStep α :=
  let minGallop := max 1 (s.minGallop - 1)
  let nofWinsA := gallopRight cmp temp d (elemAt s.work s.cursor d) s.cursorTemp s.lengthA 0
  if 0 < nofWinsA then
    let moved : MergeState α :=
      { s with minGallop := minGallop
               stored := minGallop
               nofWinsA := nofWinsA
               work := copyRange temp s.cursorTemp s.work s.dest nofWinsA
               dest := s.dest + nofWinsA
               cursorTemp := s.cursorTemp + nofWinsA
               lengthA := s.lengthA - nofWinsA }
    if s.lengthA - nofWinsA = 1 then copyB temp d moved
    else if s.lengthA - nofWinsA = 0 then succeedLow temp moved
    else .next moved
  else .next { s with minGallop := minGallop, stored := minGallop, nofWinsA := nofWinsA }

/-- The statement `workArray[dest++] = workArray[cursorB++]` of the galloping
loop of `MergeLow` with its test `--lengthB == 0`. -/
def takeLowB {α : Type} (temp : List α) (d : α) (s : MergeState α) : MergeStep α :=
  let moved : MergeState α :=
    { s with work := setAt s.work s.dest (elemAt s.work s.cursor d)
             dest := s.dest + 1
             cursor := s.cursor + 1
             lengthB := s.lengthB - 1 }
  if s.lengthB - 1 = 0 then succeedLow temp moved else .next moved

/-- The galloping loop of `MergeLow`, second part: `GallopLeft` counts the
elements of run B that come before the next element of run A, and they are
copied. -/
def gallopLowB {α : Type} (cmp : α → α → Int) (temp : List α) (d : α) (s : MergeState α) :
    MergeStep α :=
  let nofWinsB := gallopLeft cmp s.work d (elemAt temp s.cursorTemp d) s.cursor s.lengthB 0
  if 0 < nofWinsB then
    let moved : MergeState α :=
      { s with nofWinsB := nofWinsB
               work := copyRange s.work s.cursor s.work s.dest nofWinsB
               dest := s.dest + nofWinsB
               cursor := s.cursor + nofWinsB
               lengthB := s.lengthB - nofWinsB }
    if s.lengthB - nofWinsB = 0 then succeedLow temp moved else .next moved
  else .next { s with nofWinsB := nofWinsB }

/-- The statement `workArray[dest++] = tempArray[cursorTemp++]` of the
galloping loop of `MergeLow` with its test `--lengthA == 1`. -/
def takeLowA {α : Type} (temp : List α) (d : α) (s : MergeState α) : MergeStep α :=
  let moved : MergeState α :=
    { s with work := setAt s.work s.dest (elemAt temp s.cursorTemp d)
             dest := s.dest + 1
             cursorTemp := s.cursorTemp + 1
             lengthA := s.lengthA - 1 }
  if s.lengthA - 1 = 1 then copyB temp d moved else .next moved

/-- One iteration of the plain loop of `MergeLow`. -/
def plainLowStep {α : Type} (cmp : α → α → Int) (temp : List α) (d : α) (s : MergeState α) :
    MergeStep α :=
  let order := cmp (elemAt s.work s.cursor d) (elemAt temp s.cursorTemp d)
  if order < 0 then
    let moved : MergeState α :=
      { s with work := setAt s.work s.dest (elemAt s.work s.cursor d)
               dest := s.dest + 1
               cursor := s.cursor + 1
               nofWinsB := s.nofWinsB + 1
               lengthB := s.lengthB - 1
               nofWinsA := 0 }
    if s.lengthB - 1 = 0 then succeedLow temp moved
    else plainNext (s.nofWinsB + 1) moved
  else
    let moved : MergeState α :=
      { s with work := setAt s.work s.dest (elemAt temp s.cursorTemp d)
               dest := s.dest + 1
               cursorTemp := s.cursorTemp + 1
               nofWinsA := s.nofWinsA + 1
               lengthA := s.lengthA - 1
               nofWinsB := 0 }
    if s.lengthA - 1 = 1 then copyB temp d moved
    else plainNext (s.nofWinsA + 1) moved

/-- One iteration of the loops of `MergeLow`. -/
def mergeLowStep {α : Type} (cmp : α → α → Int) (temp : List α) (d : α) (s : MergeState α) :
    MergeStep α :=
  if s.galloping then
    (((gallopLowA cmp temp d s).andThen (takeLowB temp d)).andThen
      (gallopLowB cmp temp d)).andThen (fun s => (takeLowA temp d s).andThen gallopNext)
  else plainLowStep cmp temp d s

/-- The label `Succeed` of `MergeHigh`. -/
def succeedHigh {α : Type} (temp : List α) (s : MergeState α) : MergeStep α :=
  .done (if 0 < s.lengthB then copyRange temp 0 s.work (s.dest - (s.lengthB - 1)) s.lengthB
    else s.work) s.stored

/-- The label `CopyA` of `MergeHigh`. -/
def copyA {α : Type} (temp : List α) (d : α) (s : MergeState α) : MergeStep α :=
  let dest := s.dest - s.lengthA
  let cursorA := s.cursor - s.lengthA
  .done (setAt (copyRange s.work (cursorA + 1) s.work (dest + 1) s.lengthA) dest
    (elemAt temp s.cursorTemp d)) s.stored

/-- The galloping loop of `MergeHigh`, first part: `GallopRight` finds how
many elements at the end of run A come after the last element of run B, and
they are copied. -/
def gallopHighA {α : Type} (cmp : α → α → Int) (temp : List α) (d : α) (baseA : Int)
    (s : MergeState α) : MergeStep α :=
  let minGallop := max 1 (s.minGallop - 1)
  let k := gallopRight cmp s.work d (elemAt temp s.cursorTemp d) baseA s.lengthA (s.lengthA - 1)
  let nofWinsA := s.lengthA - k
  if 0 < nofWinsA then
    let moved : MergeState α :=
      { s with minGallop := minGallop
               stored := minGallop
               nofWinsA := nofWinsA
               work := copyRange s.work (s.cursor - nofWinsA + 1) s.work
                 (s.dest - nofWinsA + 1) nofWinsA
               dest := s.dest - nofWinsA
               cursor := s.cursor - nofWinsA
               lengthA := s.lengthA - nofWinsA }
    if s.lengthA - nofWinsA = 0 then succeedHigh temp moved else .next moved
  else .next { s with minGallop := minGallop, stored := minGallop, nofWinsA := nofWinsA }

/-- The statement `workArray[dest--] = tempArray[cursorTemp--]` of the
galloping loop of `MergeHigh` with its test `--lengthB == 1`. -/
def takeHighB {α : Type} (temp : List α) (d : α) (s : MergeState α) : MergeStep α :=
  let moved : MergeState α :=
    { s with work := setAt s.work s.dest (elemAt temp s.cursorTemp d)
             dest := s.dest - 1
             cursorTemp := s.cursorTemp - 1
             lengthB := s.lengthB - 1 }
  if s.lengthB - 1 = 1 then copyA temp d moved else .next moved

/-- The galloping loop of `MergeHigh`, second part: `GallopLeft` finds how
many elements at the end of run B come after the last element of run A, and
they are copied. -/
def gallopHighB {α : Type} (cmp : α → α → Int) (temp : List α) (d : α) (s : MergeState α) :
    MergeStep α :=
  let k := gallopLeft cmp temp d (elemAt s.work s.cursor d) 0 s.lengthB (s.lengthB - 1)
  let nofWinsB := s.lengthB - k
  if 0 < nofWinsB then
    let moved : MergeState α :=
      { s with nofWinsB := nofWinsB
               work := copyRange temp (s.cursorTemp - nofWinsB + 1) s.work
                 (s.dest - nofWinsB + 1) nofWinsB
               dest := s.dest - nofWinsB
               cursorTemp := s.cursorTemp - nofWinsB
               lengthB := s.lengthB - nofWinsB }
    if s.lengthB - nofWinsB = 1 then copyA temp d moved
    else if s.lengthB - nofWinsB = 0 then succeedHigh temp moved
    else .next moved
  else .next { s with nofWinsB := nofWinsB }

/-- The statement `workArray[dest--] = workArray[cursorA--]` of the galloping
loop of `MergeHigh` with its test `--lengthA == 0`. -/
def takeHighA {α : Type} (temp : List α) (d : α) (s : MergeState α) : MergeStep α :=
  let moved : MergeState α :=
    { s with work := setAt s.work s.dest (elemAt s.work s.cursor d)
             dest := s.dest - 1
             cursor := s.cursor - 1
             lengthA := s.lengthA - 1 }
  if s.lengthA - 1 = 0 then succeedHigh temp moved else .next moved

/-- One iteration of the plain loop of `MergeHigh`. -/
def plainHighStep {α : Type} (cmp : α → α → Int) (temp : List α) (d : α) (s : MergeState α) :
    MergeStep α :=
  let order := cmp (elemAt temp s.cursorTemp d) (elemAt s.work s.cursor d)
  if order < 0 then
    let moved : MergeState α :=
      { s with work := setAt s.work s.dest (elemAt s.work s.cursor d)
               dest := s.dest - 1
               cursor := s.cursor - 1
               nofWinsA := s.nofWinsA + 1
               lengthA := s.lengthA - 1
               nofWinsB := 0 }
    if s.lengthA - 1 = 0 then succeedHigh temp moved
    else plainNext (s.nofWinsA + 1) moved
  else
    let moved : MergeState α :=
      { s with work := setAt s.work s.dest (elemAt temp s.cursorTemp d)
               dest := s.dest - 1
               cursorTemp := s.cursorTemp - 1
               nofWinsB := s.nofWinsB + 1
               lengthB := s.lengthB - 1
               nofWinsA := 0 }
    if s.lengthB - 1 = 1 then copyA temp d moved
    else plainNext (s.nofWinsB + 1) moved

/-- One iteration of the loops of `MergeHigh`; `baseA` is the start of run A. -/
def mergeHighStep {α : Type} (cmp : α → α → Int) (temp : List α) (d : α) (baseA : Int)
    (s : MergeState α) : MergeStep α :=
  if s.galloping then
    (((gallopHighA cmp temp d baseA s).andThen (takeHighB temp d)).andThen
      (gallopHighB cmp temp d)).andThen (fun s => (takeHighA temp d s).andThen gallopNext)
  else plainHighStep cmp temp d s

/-- The iterations of a merge, one after the other. -/
def mergeRun {α : Type} (step : MergeState α → MergeStep α) : Nat → MergeState α → List α × Int
  | 0, s => (s.work, s.stored)
  | fuel + 1, s =>
    match step s with
    | .done work stored => (work, stored)
    | .next s => mergeRun step fuel s

/-- The macro `MergeLow(baseA, lengthA, baseB, lengthB)`. -/
def mergeLow {α : Type} (cmp : α → α → Int) (work : List α) (d : α) (minGallop : Int)
    (baseA lengthA baseB lengthB : Int) : List α × Int :=
  let temp := (work.drop baseA.toNat).take lengthA.toNat
  let s : MergeState α :=
    { work := setAt work baseA (elemAt work baseB d)
      dest := baseA + 1
      cursorTemp := 0
      cursor := baseB + 1
      lengthA := lengthA
      lengthB := lengthB - 1
      minGallop := minGallop
      stored := minGallop
      nofWinsA := 0
      nofWinsB := 0
      galloping := false }
  if s.lengthB = 0 then
    match succeedLow temp s with
    | .done work stored => (work, stored)
    | .next s => (s.work, s.stored)
  else if s.lengthA = 1 then
    match copyB temp d s with
    | .done work stored => (work, stored)
    | .next s => (s.work, s.stored)
  else mergeRun (mergeLowStep cmp temp d) (lengthA + lengthB).toNat s

/-- The macro `MergeHigh(baseA, lengthA, baseB, lengthB)`. -/
def mergeHigh {α : Type} (cmp : α → α → Int) (work : List α) (d : α) (minGallop : Int)
    (baseA lengthA baseB lengthB : Int) : List α × Int :=
  let temp := (work.drop baseB.toNat).take lengthB.toNat
  let s : MergeState α :=
    { work := setAt work (baseB + lengthB - 1) (elemAt work (baseA + lengthA - 1) d)
      dest := baseB + lengthB - 2
      cursorTemp := lengthB - 1
      cursor := baseA + lengthA - 2
      lengthA := lengthA - 1
      lengthB := lengthB
      minGallop := minGallop
      stored := minGallop
      nofWinsA := 0
      nofWinsB := 0
      galloping := false }
  if s.lengthA = 0 then
    match succeedHigh temp s with
    | .done work stored => (work, stored)
    | .next s => (s.work, s.stored)
  else if s.lengthB = 1 then
    match copyA temp d s with
    | .done work stored => (work, stored)
    | .next s => (s.work, s.stored)
  else mergeRun (mergeHighStep cmp temp d baseA) (lengthA + lengthB).toNat s

/-- The sort state that the merges read and write: the work array, the stack
of pending runs (base and length, the oldest first) and `minGallop`. -/
structure SortState (α : Type) where
  workArray : List α
  pendingRuns : List (Int × Int)
  minGallop : Int

/-- The length of pending run `n`. -/
def runLength {α : Type} (s : SortState α) (n : Int) : Int :=
  (elemAt s.pendingRuns n (0, 0)).2

/-- The builtin `MergeAt(i)`. -/
def mergeAt {α : Type} (cmp : α → α → Int) (d : α) (s : SortState α) (i : Int) : SortState α :=
  let baseA := (elemAt s.pendingRuns i (0, 0)).1
  let lengthA := (elemAt s.pendingRuns i (0, 0)).2
  let baseB := (elemAt s.pendingRuns (i + 1) (0, 0)).1
  let lengthB := (elemAt s.pendingRuns (i + 1) (0, 0)).2
  let pendingRuns := (setAt s.pendingRuns i (baseA, lengthA + lengthB)).eraseIdx (i + 1).toNat
  let s := { s with pendingRuns := pendingRuns }
  let keyRight := elemAt s.workArray baseB d
  let k := gallopRight cmp s.workArray d keyRight baseA lengthA 0
  let baseA := baseA + k
  let lengthA := lengthA - k
  if lengthA = 0 then s
  else
    let keyLeft := elemAt s.workArray (baseA + lengthA - 1) d
    let lengthB := gallopLeft cmp s.workArray d keyLeft baseB lengthB (lengthB - 1)
    if lengthB = 0 then s
    else
      let r :=
        if lengthA ≤ lengthB then mergeLow cmp s.workArray d s.minGallop baseA lengthA baseB lengthB
        else mergeHigh cmp s.workArray d s.minGallop baseA lengthA baseB lengthB
      { s with workArray := r.1, minGallop := r.2 }

/-- The macro `RunInvariantEstablished(pendingRuns, n)`. -/
def runInvariantEstablished {α : Type} (s : SortState α) (n : Int) : Bool :=
  if n < 2 then true
  else decide (runLength s (n - 2) > runLength s (n - 1) + runLength s n)

/-- The macro `MergeCollapse`. -/
def mergeCollapse {α : Type} (cmp : α → α → Int) (d : α) : Nat → SortState α → SortState α
  | 0, s => s
  | fuel + 1, s =>
    if 1 < s.pendingRuns.length then
      let n : Int := (s.pendingRuns.length : Int) - 2
      if !runInvariantEstablished s (n + 1) || !runInvariantEstablished s n then
        let n := if runLength s (n - 1) < runLength s (n + 1) then n - 1 else n
        mergeCollapse cmp d fuel (mergeAt cmp d s n)
      else if runLength s n ≤ runLength s (n + 1) then
        mergeCollapse cmp d fuel (mergeAt cmp d s n)
      else s
    else s

/-- The macro `MergeForceCollapse`. -/
def mergeForceCollapse {α : Type} (cmp : α → α → Int) (d : α) :
    Nat → SortState α → SortState α
  | 0, s => s
  | fuel + 1, s =>
    if 1 < s.pendingRuns.length then
      let n : Int := (s.pendingRuns.length : Int) - 2
      let n := if 0 < n ∧ runLength s (n - 1) < runLength s (n + 1) then n - 1 else n
      mergeForceCollapse cmp d fuel (mergeAt cmp d s n)
    else s

/-- The loop of `ArrayTimSortImpl`: find the next run, extend it to the
minimum run length, push it and merge. -/
def timSortLoop {α : Type} (cmp : α → α → Int) (d : α) (minRunLength : Int) :
    Nat → Int → Int → SortState α → SortState α
  | 0, _, _, s => s
  | fuel + 1, low, remaining, s =>
    if remaining = 0 then s
    else
      let r := countAndMakeRun cmp s.workArray d low (low + remaining)
      let work := r.1
      let currentRunLength := r.2
      let forcedRunLength := min minRunLength remaining
      let work :=
        if currentRunLength < minRunLength then
          binaryInsertionSort cmp work d low (low + currentRunLength) (low + forcedRunLength)
        else work
      let currentRunLength :=
        if currentRunLength < minRunLength then forcedRunLength else currentRunLength
      let s := { s with workArray := work, pendingRuns := s.pendingRuns ++ [(low, currentRunLength)] }
      let s := mergeCollapse cmp d s.pendingRuns.length s
      timSortLoop cmp d minRunLength fuel (low + currentRunLength) (remaining - currentRunLength) s

/-- The macro `ArrayTimSortImpl`. -/
def arrayTimSortImpl {α : Type} (cmp : α → α → Int) (d : α) (work : List α) : List α :=
  if work.length < 2 then work
  else
    let s : SortState α := { workArray := work, pendingRuns := [], minGallop := kMinGallopWins }
    let s := timSortLoop cmp d (computeMinRunLength work.length) work.length 0 work.length s
    (mergeForceCollapse cmp d s.pendingRuns.length s).workArray

/-- The method `Array.prototype.sort(comparefn)` of V8 on an array of defined
elements. -/
def arraySort {α : Type} (comparefn : α → α → Option Int) (arr : List α) : List α :=
  match arr with
  | [] => []
  | d :: _ => arrayTimSortImpl (sortCompare comparefn) d arr

/-- The comparator of `sortEventsByTime`: `new Date(a.startDatetime) -
new Date(b.startDatetime)`. -/
def compareStart (a b : Event) : Option Int :=
  dateDiff a.startDatetime b.startDatetime

/-- The function `sortEventsByTime`: the copy `[...events]` is what is
sorted, so the argument itself is never written to. -/
def sortEventsByTime (events : List Event) : List Event :=
  arraySort compareStart events

/-! ## The cache snapshot (server.js, lines 90-97 and 129-229) -/

/-- The venue metadata: the JSON text of the decoded object. -/
abbrev Venue := String

/-- The object `cachedDataset`. -/
structure Snapshot where
  events : List Event
  venue : Option Venue
  fetchedAt : Option Int
  lastSuccessfulFetch : Option Int
  isOffline : Bool
  errorCount : Nat
  deriving DecidableEq

/-- The initial value of `cachedDataset`. -/
def cachedDataset : Snapshot :=
  { events := []
    venue := none
    fetchedAt := none
    lastSuccessfulFetch := none
    isOffline := false
    errorCount := 0 }

/-- The product `value * k` of JavaScript for an integer `k`. -/
def JsNumber.mulInt : JsNumber → Int → JsNumber
  | .finite q, k => .finite (q * k)
  | .nan, _ => .nan
  | .posInf, k => if 0 < k then .posInf else if k < 0 then .negInf else .nan
  | .negInf, k => if 0 < k then .negInf else if k < 0 then .posInf else .nan

/-- The comparison `a < value` of JavaScript for an integer `a`. -/
def JsNumber.intLt (a : Int) : JsNumber → Bool
  | .finite q => decide ((a : ℚ) < q)
  | .posInf => true
  | _ => false

/-- The function `isCacheValid`, with `Date.now()` as the argument `now`. -/
def isCacheValid (config : Config) (now : Int) (cachedDataset : Snapshot) : Bool :=
  match cachedDataset.lastSuccessfulFetch with
  | none => false
  | some lastSuccessfulFetch =>
    let cacheAgeMs := now - lastSuccessfulFetch
    let maxAgeMs := ((config.offlineRetentionHours.mulInt 60).mulInt 60).mulInt 1000
    JsNumber.intLt cacheAgeMs maxAgeMs

/-- What is decoded from the body of a 2xx events response. -/
inductive Body where
  /-- The call `res.json()` rejects: the body is not JSON. -/
  | undecodable
  /-- The body is JSON on which `hydrateMediaUrls` or `sortEventsByTime`
  throws: not an array, a `null` element, an `imageUrl` that is neither
  falsy nor a string. -/
  | notEventList
  /-- The body is an array of events. -/
  | eventList (events : List Event)
  deriving DecidableEq

/-- The outcome of the events request `fetch(endpoint, ...)`. -/
inductive EventsFetch where
  /-- The promise rejects: network error or timeout. -/
  | rejected
  /-- A response arrives. -/
  | response (status : Nat) (body : Body)
  deriving DecidableEq

/-- The outcome of the venue metadata request. -/
inductive VenueFetch where
  /-- The promise rejects: network error or timeout. -/
  | rejected
  /-- A response arrives; `body` is `none` when `venueRes.json()` rejects and
  `some none` when the JSON value is `null`. -/
  | response (status : Nat) (body : Option (Option Venue))
  deriving DecidableEq

/-- The property `ok` of a response: the status is in the range 200-299. -/
def responseOk (status : Nat) : Bool :=
  decide (200 ≤ status) && decide (status ≤ 299)

/-- What one call of `refreshEvents` meets: the clock at entry, the outcomes
of the two requests, and the clock when the handler calls `isCacheValid`. -/
structure Attempt where
  fetchTimestamp : Int
  eventsFetch : EventsFetch
  venueFetch : VenueFetch
  now : Int
  deriving DecidableEq

/-- What is thrown inside the `try` block of `refreshEvents`. -/
inductive FetchError where
  | network
  | http (status : Nat)
  | decode
  | type
  deriving DecidableEq

/-- The inner `try` of `refreshEvents`: the venue metadata, `none` when no
venue slug is configured, the request fails, or the status is not 2xx. -/
def fetchVenue (config : Config) (venueFetch : VenueFetch) : Option Venue :=
  match config.venueSlug with
  | none => none
  | some slug =>
    if slug = "" then none
    else
      match venueFetch with
      | .rejected => none
      | .response status body =>
        if responseOk status then
          match body with
          | some venue => venue
          | none => none
        else none

/-- The `try` block of `refreshEvents`: the replacement snapshot, or what
is thrown. -/
def refreshTry (config : Config) (a : Attempt) : Except FetchError Snapshot :=
  match a.eventsFetch with
  | .rejected => .error .network
  | .response status body =>
    if !responseOk status then .error (.http status)
    else
      match body with
      | .undecodable => .error .decode
      | .notEventList => .error .type
      | .eventList payload =>
        let events := hydrateMediaUrls config.controllerBaseUrl payload
        let events := sortEventsByTime events
        let venue := fetchVenue config a.venueFetch
        .ok
          { events := events
            venue := venue
            fetchedAt := some a.fetchTimestamp
            lastSuccessfulFetch := some a.fetchTimestamp
            isOffline := false
            errorCount := 0 }

/-- The `catch` block of `refreshEvents`. -/
def refreshCatch (config : Config) (a : Attempt) (cachedDataset : Snapshot) : Snapshot :=
  let cachedDataset := { cachedDataset with errorCount := cachedDataset.errorCount + 1 }
  let cachedDataset := { cachedDataset with fetchedAt := some a.fetchTimestamp }
  if isCacheValid config a.now cachedDataset then
    { cachedDataset with isOffline := true }
  else
    { cachedDataset with isOffline := true }

/-- The function `refreshEvents` as a step on the snapshot. -/
def refreshEvents (config : Config) (a : Attempt) (cachedDataset : Snapshot) : Snapshot :=
  match refreshTry config a with
  | .ok replacement => replacement
  | .error _ => refreshCatch config a cachedDataset

/-- The scheduler: `refreshEvents` once per attempt, in order, starting from
the snapshot given. -/
def runAttempts (config : Config) (cachedDataset : Snapshot) (attempts : List Attempt) :
    Snapshot :=
  attempts.foldl (fun snapshot a => refreshEvents config a snapshot) cachedDataset

/-- Whether the events request of an attempt succeeds. -/
def Attempt.succeeds (a : Attempt) : Bool :=
  match a.eventsFetch with
  | .response status (.eventList _) => responseOk status
  | _ => false

/-! ## The health check (server.js, lines 279-297) -/

/-- The response of `GET /healthz`: status code and JSON body. -/
structure HealthResponse where
  statusCode : Nat
  status : String
  events : Option Nat
  lastFetch : Option Int
  isOffline : Option Bool
  cacheValid : Option Bool
  error : Option String
  deriving DecidableEq

/-- The handler of `GET /healthz`; `now` and `now2` are the two readings of
`Date.now()` made by its two calls of `isCacheValid`. -/
def healthz (config : Config) (now now2 : Int) (cachedDataset : Snapshot) : HealthResponse :=
  let isHealthy := isCacheValid config now cachedDataset || decide (cachedDataset.events.length > 0)
  if isHealthy then
    { statusCode := 200
      status := "healthy"
      events := some cachedDataset.events.length
      lastFetch := cachedDataset.lastSuccessfulFetch
      isOffline := some cachedDataset.isOffline
      cacheValid := some (isCacheValid config now2 cachedDataset)
      error := none }
  else
    { statusCode := 503
      status := "unhealthy"
      events := none
      lastFetch := cachedDataset.lastSuccessfulFetch
      isOffline := none
      cacheValid := none
      error := some "No valid event data available" }

/-! ## The key file (scripts/configure-api-key.js, lines 62-84) -/

/-- Puts a character in front of the first line of a list of lines. -/
def consFirst (c : Char) : List (List Char) → List (List Char)
  | [] => [[c]]
  | line :: lines => (c :: line) :: lines

/-- The call `content.split(/\r?\n/)` over the characters of `content`: a
line ends at a line feed, and a carriage return right before that line feed
belongs to the separator. -/
def splitChars : List Char → List (List Char)
  | [] => [[]]
  | [c] => if c = '\n' then [[], []] else [[c]]
  | c :: d :: cs =>
    if c = '\n' then [] :: splitChars (d :: cs)
    else if c = '\r' ∧ d = '\n' then [] :: splitChars cs
    else consFirst c (splitChars (d :: cs))

/-- The call `content.split(/\r?\n/)`. -/
def splitLines (content : String) : List String :=
  (splitChars content.data).map String.mk

/-- The call `lines.join('\n')`. -/
def joinLines (lines : List String) : String :=
  ⟨List.intercalate ['\n'] (lines.map String.data)⟩

/-- The method `Array.prototype.filter` with a callback that also reads the
index of the element. -/
def filterWithIndex {α : Type} (keep : α → Nat → Bool) (arr : List α) : List α :=
  (arr.enum.filter (fun p => keep p.2 p.1)).map Prod.snd

/-- The function `upsertEnvVar`. -/
def upsertEnvVar (content key value : String) : String :=
  let lines := splitLines content
  let updated := lines.any (fun line => startsWith line (key ++ "="))
  let newLines := lines.map (fun line =>
    if startsWith line (key ++ "=") then key ++ "=" ++ value else line)
  let newLines := if !updated then newLines ++ [key ++ "=" ++ value] else newLines
  joinLines (filterWithIndex
    (fun line index => !(decide (index = newLines.length - 1) && decide (jsTrim line = "")))
    newLines) ++ "\n"

/-! ## Notions used to state the properties -/

/-- The number of failed attempts at the end of a sequence of attempts,
counted back to the last successful one. -/
def trailingFailures (attempts : List Attempt) : Nat :=
  (attempts.reverse.takeWhile (fun a => !a.succeeds)).length

/-- Whether a sequence of attempts is non-empty and ends in a failure. -/
def lastAttemptFailed (attempts : List Attempt) : Bool :=
  match attempts.getLast? with
  | some a => !a.succeeds
  | none => false

/-- A numeric setting is resolved from its input: it is an integer that is at
least the minimum, and the default whenever the input is not a finite number
or lies below the minimum. -/
def ResolvedFrom (input resolved : JsNumber) (minimum default : Int) : Prop :=
  ∃ n : Int, resolved = .finite (n : ℚ) ∧ minimum ≤ n ∧
    ((∀ q, input = .finite q → q < (minimum : ℚ)) → n = default)

/-! ## Sample inputs -/

/-- A stand-in for `new URL(...)` that accepts every string as an https URL. -/
def sampleParseUrl (s : String) : Option ParsedUrl :=
  some ⟨"https:", s⟩

/-- A configuration as read from an environment with a non-numeric port, a
fetch interval below 15, no event limit and a retention of 0 hours. -/
def sampleRawConfig : Config :=
  { port := .nan
    controllerBaseUrl := " https://signage.test/ "
    controllerApiKey := some "  "
    venueSlug := some "main-hall"
    fetchIntervalS := .finite 5
    displayRotationS := .finite 30
    maxEventsDisplay := .negInf
    offlineRetentionHours := .finite 0 }

/-- What `validateConfiguration` makes of `sampleRawConfig`. -/
def sampleConfig : Config :=
  { port := .finite 3000
    controllerBaseUrl := "https://signage.test"
    controllerApiKey := none
    venueSlug := some "main-hall"
    fetchIntervalS := .finite 60
    displayRotationS := .finite 30
    maxEventsDisplay := .finite 6
    offlineRetentionHours := .finite 24 }

/-- An attempt whose events request is answered with status 502. -/
def sampleBadGateway : Attempt :=
  { fetchTimestamp := 1000
    eventsFetch := .response 502 .undecodable
    venueFetch := .rejected
    now := 1001 }

/-- An attempt whose events request times out. -/
def sampleTimeout : Attempt :=
  { fetchTimestamp := 61000
    eventsFetch := .rejected
    venueFetch := .rejected
    now := 71000 }

/-- A snapshot holding one event, fetched at time 500. -/
def sampleSnapshot : Snapshot :=
  { events := [⟨some "https://cdn/y.png", some 900, []⟩]
    venue := some "\x7b\x7d"
    fetchedAt := some 500
    lastSuccessfulFetch := some 500
    isOffline := false
    errorCount := 0 }

/-- Two events are in ascending order of start time: the first does not
start after the second; an event without a valid start time is in order
with every event. -/
def startsInOrder (a b : Event) : Bool :=
  match a.startDatetime, b.startDatetime with
  | some x, some y => decide (x ≤ y)
  | _, _ => true

/-- A list of events is ordered ascending by start time. -/
def AscendingByStart (events : List Event) : Prop :=
  events.Pairwise (fun a b => startsInOrder a b = true)

instance (events : List Event) : Decidable (AscendingByStart events) := by
  unfold AscendingByStart
  infer_instance

/-- Three events starting at times 3, at an invalid date, and at time 1. -/
def sampleUnparsedStart : List Event :=
  [⟨none, some 3, [("title", "\"c\"")]⟩, ⟨none, none, [("title", "\"x\"")]⟩,
    ⟨none, some 1, [("title", "\"a\"")]⟩]

/-- Four events starting at times 3, 1, 2 and again 1. -/
def sampleStarts : List Event :=
  [⟨none, some 3, [("title", "\"c\"")]⟩, ⟨none, some 1, [("title", "\"a\"")]⟩,
    ⟨none, some 2, [("title", "\"b\"")]⟩, ⟨none, some 1, [("title", "\"d\"")]⟩]

/-- The line that `upsertEnvVar` writes for a key: the key, "=", the value. -/
def envLine (key value : String) : String :=
  key ++ "=" ++ value

/-- A list of lines without its last line when that line is blank (empty or
white space only), and the list itself otherwise. -/
def dropTrailingBlank (lines : List String) : List String :=
  match lines.getLast? with
  | some line => if jsTrim line = "" then lines.dropLast else lines
  | none => lines

/-- A text ends with exactly one line terminator: its last character is a
line feed and the character before that, if any, is not. -/
def endsWithOneTerminator (s : String) : Bool :=
  match s.data.reverse with
  | c :: before => c == '\n' && before.head? != some '\n'
  | [] => false

/-- Four events starting at times 2, 1, at an invalid date, and at time 0. -/
def sampleUnparsedThird : List Event :=
  [⟨none, some 2, [("title", "\"e0\"")]⟩, ⟨none, some 1, [("title", "\"e1\"")]⟩,
    ⟨none, none, [("title", "\"e2\"")]⟩, ⟨none, some 0, [("title", "\"e3\"")]⟩]

/-! ## The refresh step -/

theorem refreshTry_of_succeeds (config : Config) (a : Attempt) (h : a.succeeds = true) :
    ∃ status payload, a.eventsFetch = .response status (.eventList payload) ∧
      responseOk status = true ∧
      refreshTry config a = .ok
        { events := sortEventsByTime (hydrateMediaUrls config.controllerBaseUrl payload)
          venue := fetchVenue config a.venueFetch
          fetchedAt := some a.fetchTimestamp
          lastSuccessfulFetch := some a.fetchTimestamp
          isOffline := false
          errorCount := 0 } := by
  obtain ⟨t, ef, vf, now⟩ := a
  cases ef with
  | rejected => simp [Attempt.succeeds] at h
  | response status body =>
    cases body with
    | undecodable => simp [Attempt.succeeds] at h
    | notEventList => simp [Attempt.succeeds] at h
    | eventList payload =>
      have hok : responseOk status = true := by simpa [Attempt.succeeds] using h
      exact ⟨status, payload, rfl, hok, by simp [refreshTry, hok]⟩

theorem refreshTry_of_fails (config : Config) (a : Attempt) (h : a.succeeds = false) :
    ∃ e, refreshTry config a = .error e := by
  obtain ⟨t, ef, vf, now⟩ := a
  cases ef with
  | rejected => exact ⟨.network, rfl⟩
  | response status body =>
    cases hok : responseOk status with
    | false => exact ⟨.http status, by simp [refreshTry, hok]⟩
    | true =>
      cases body with
      | undecodable => exact ⟨.decode, by simp [refreshTry, hok]⟩
      | notEventList => exact ⟨.type, by simp [refreshTry, hok]⟩
      | eventList payload => simp [Attempt.succeeds, hok] at h

theorem refreshCatch_eq (config : Config) (a : Attempt) (s : Snapshot) :
    refreshCatch config a s =
      { s with errorCount := s.errorCount + 1, fetchedAt := some a.fetchTimestamp,
               isOffline := true } := by
  simp only [refreshCatch, ite_self]

theorem refreshEvents_of_fails (config : Config) (a : Attempt) (s : Snapshot)
    (h : a.succeeds = false) :
    refreshEvents config a s =
      { s with errorCount := s.errorCount + 1, fetchedAt := some a.fetchTimestamp,
               isOffline := true } := by
  obtain ⟨e, he⟩ := refreshTry_of_fails config a h
  simp [refreshEvents, he, refreshCatch_eq]

theorem refreshEvents_of_succeeds (config : Config) (a : Attempt) (s : Snapshot)
    (h : a.succeeds = true) :
    (refreshEvents config a s).errorCount = 0 ∧ (refreshEvents config a s).isOffline = false ∧
      (refreshEvents config a s).lastSuccessfulFetch = some a.fetchTimestamp := by
  obtain ⟨status, payload, _, _, he⟩ := refreshTry_of_succeeds config a h
  simp [refreshEvents, he]

theorem runAttempts_append (config : Config) (s : Snapshot) (attempts : List Attempt)
    (a : Attempt) :
    runAttempts config s (attempts ++ [a]) =
      refreshEvents config a (runAttempts config s attempts) := by
  simp [runAttempts, List.foldl_append]

theorem trailingFailures_append (attempts : List Attempt) (a : Attempt) :
    trailingFailures (attempts ++ [a]) =
      if a.succeeds then 0 else trailingFailures attempts + 1 := by
  cases h : a.succeeds <;> simp [trailingFailures, List.takeWhile_cons, h]

theorem lastAttemptFailed_append (attempts : List Attempt) (a : Attempt) :
    lastAttemptFailed (attempts ++ [a]) = !a.succeeds := by
  simp [lastAttemptFailed]

theorem runAttempts_counts (config : Config) (attempts : List Attempt) :
    (runAttempts config cachedDataset attempts).errorCount = trailingFailures attempts ∧
      (runAttempts config cachedDataset attempts).isOffline = lastAttemptFailed attempts := by
  induction attempts using List.reverseRecOn with
  | nil => exact ⟨rfl, rfl⟩
  | append_singleton attempts a ih =>
    rw [runAttempts_append, trailingFailures_append, lastAttemptFailed_append]
    cases h : a.succeeds with
    | true =>
      obtain ⟨h1, h2, _⟩ := refreshEvents_of_succeeds config a
        (runAttempts config cachedDataset attempts) h
      simp [h1, h2]
    | false =>
      rw [refreshEvents_of_fails config a _ h]
      simp [ih.1]

theorem runAttempts_all_failed (config : Config) (attempts : List Attempt)
    (h : ∀ a ∈ attempts, a.succeeds = false) :
    (runAttempts config cachedDataset attempts).lastSuccessfulFetch = none ∧
      (runAttempts config cachedDataset attempts).events = [] ∧
      (runAttempts config cachedDataset attempts).venue = none := by
  induction attempts using List.reverseRecOn with
  | nil => exact ⟨rfl, rfl, rfl⟩
  | append_singleton attempts a ih =>
    have ha : a.succeeds = false := h a (by simp)
    have ih2 := ih (fun b hb => h b (by simp [hb]))
    rw [runAttempts_append, refreshEvents_of_fails config a _ ha]
    exact ih2

theorem isCacheValid_iff (config : Config) (now t : Int) (s : Snapshot) (hours : Int)
    (hcfg : config.offlineRetentionHours = .finite (hours : ℚ))
    (hs : s.lastSuccessfulFetch = some t) :
    isCacheValid config now s = true ↔ now - t < hours * 3600000 := by
  simp only [isCacheValid, hs, hcfg, JsNumber.mulInt, JsNumber.intLt, decide_eq_true_eq]
  constructor
  · intro h
    have h2 : ((now - t : Int) : ℚ) < ((hours * 3600000 : Int) : ℚ) := by
      push_cast at h ⊢
      linarith
    exact_mod_cast h2
  · intro h
    have h2 : ((now - t : Int) : ℚ) < ((hours * 3600000 : Int) : ℚ) := by exact_mod_cast h
    push_cast at h2 ⊢
    linarith

theorem isCacheValid_of_never (config : Config) (now : Int) (s : Snapshot)
    (hs : s.lastSuccessfulFetch = none) : isCacheValid config now s = false := by
  simp [isCacheValid, hs]

theorem healthz_of_healthy (config : Config) (now now2 : Int) (s : Snapshot)
    (h : isCacheValid config now s = true ∨ 0 < s.events.length) :
    (healthz config now now2 s).statusCode = 200 ∧
      (healthz config now now2 s).status = "healthy" := by
  have hh : (isCacheValid config now s || decide (s.events.length > 0)) = true := by
    rcases h with h | h <;> simp [h]
  simp [healthz, hh]

theorem healthz_of_unhealthy (config : Config) (now now2 : Int) (s : Snapshot)
    (h : ¬ (isCacheValid config now s = true ∨ 0 < s.events.length)) :
    (healthz config now now2 s).statusCode = 503 ∧
      (healthz config now now2 s).status = "unhealthy" := by
  have hh : (isCacheValid config now s || decide (s.events.length > 0)) = false := by
    simp only [not_or] at h
    simp [h.1, h.2]
  simp [healthz, hh]

/-! ## The claims about the cache state machine -/

/-- C1: when the events request of a `refreshEvents` call fails (the fetch
rejects, the status is not 2xx, or the body cannot be decoded or normalised),
the exception raised in the `try` block is caught, and the resulting snapshot
has `errorCount` one higher, `fetchedAt` equal to the fetch timestamp and
`isOffline` true, whereas `events`, `venue` and `lastSuccessfulFetch` are
those of the snapshot before, whatever `isCacheValid` says; a second failure
right after a first one on a snapshot with `errorCount` 0 gives 1, then 2. -/
theorem refreshEvents_failure_folds_into_snapshot (config : Config) (a b : Attempt)
    (s : Snapshot) (ha : a.succeeds = false) (hb : b.succeeds = false) :
    (∃ e, refreshTry config a = .error e) ∧
      (refreshEvents config a s).errorCount = s.errorCount + 1 ∧
      (refreshEvents config a s).fetchedAt = some a.fetchTimestamp ∧
      (refreshEvents config a s).isOffline = true ∧
      (refreshEvents config a s).events = s.events ∧
      (refreshEvents config a s).venue = s.venue ∧
      (refreshEvents config a s).lastSuccessfulFetch = s.lastSuccessfulFetch ∧
      (s.errorCount = 0 →
        (refreshEvents config a s).errorCount = 1 ∧
        (refreshEvents config b (refreshEvents config a s)).errorCount = 2 ∧
        (refreshEvents config b (refreshEvents config a s)).events = s.events ∧
        (refreshEvents config b (refreshEvents config a s)).venue = s.venue ∧
        (refreshEvents config b (refreshEvents config a s)).lastSuccessfulFetch =
          s.lastSuccessfulFetch) := by
  refine ⟨refreshTry_of_fails config a ha, ?_⟩
  rw [refreshEvents_of_fails config b _ hb, refreshEvents_of_fails config a s ha]
  refine ⟨rfl, rfl, rfl, rfl, rfl, rfl, ?_⟩
  intro h0
  simp [h0]

/-- C2: when the events request answers 2xx with an event list `payload`,
`refreshEvents` replaces the snapshot, whatever it was, by the one with
`events = sortEventsByTime (hydrateMediaUrls payload)`, `fetchedAt` and
`lastSuccessfulFetch` equal to the fetch timestamp, `isOffline` false and
`errorCount` 0, for every outcome of the venue request; a venue request that
is rejected or answered with a status outside 2xx only makes `venue` absent. -/
theorem refreshEvents_success_replaces_snapshot (config : Config) (s : Snapshot)
    (fetchTimestamp now : Int) (status : Nat) (payload : List Event) (venueFetch : VenueFetch)
    (hok : responseOk status = true) :
    refreshEvents config
        ⟨fetchTimestamp, .response status (.eventList payload), venueFetch, now⟩ s =
      { events := sortEventsByTime (hydrateMediaUrls config.controllerBaseUrl payload)
        venue := fetchVenue config venueFetch
        fetchedAt := some fetchTimestamp
        lastSuccessfulFetch := some fetchTimestamp
        isOffline := false
        errorCount := 0 } ∧
      fetchVenue config .rejected = none ∧
      (∀ venueStatus body, responseOk venueStatus = false →
        fetchVenue config (.response venueStatus body) = none) := by
  refine ⟨by simp [refreshEvents, refreshTry, hok], ?_, ?_⟩
  · unfold fetchVenue
    split
    · rfl
    · split <;> rfl
  · intro venueStatus body hv
    unfold fetchVenue
    split
    · rfl
    · split
      · rfl
      · simp [hv]

/-- C3: after any finite sequence of attempts applied to the initial
snapshot, `errorCount` is the number of failures at the end of the sequence
since the last success (the length of the sequence if none succeeded),
`isOffline` is true exactly when the sequence is non-empty and its last
attempt failed, and so `isOffline` holds iff `errorCount > 0`. -/
theorem runAttempts_errorCount_isOffline (config : Config) (attempts : List Attempt) :
    (runAttempts config cachedDataset attempts).errorCount = trailingFailures attempts ∧
      ((∀ a ∈ attempts, a.succeeds = false) →
        (runAttempts config cachedDataset attempts).errorCount = attempts.length) ∧
      ((runAttempts config cachedDataset attempts).isOffline = true ↔
        ∃ a, attempts.getLast? = some a ∧ a.succeeds = false) ∧
      ((runAttempts config cachedDataset attempts).isOffline = true ↔
        0 < (runAttempts config cachedDataset attempts).errorCount) := by
  obtain ⟨h1, h2⟩ := runAttempts_counts config attempts
  refine ⟨h1, ?_, ?_, ?_⟩
  · intro hall
    rw [h1, trailingFailures, List.takeWhile_eq_self_iff.mpr, List.length_reverse]
    intro a ha
    simp [hall a (List.mem_reverse.mp ha)]
  · rw [h2, lastAttemptFailed]
    cases attempts.getLast? with
    | none => simp
    | some a => simp
  · rw [h1, h2]
    induction attempts using List.reverseRecOn with
    | nil => simp [lastAttemptFailed, trailingFailures]
    | append_singleton attempts a _ =>
      rw [trailingFailures_append, lastAttemptFailed_append]
      cases a.succeeds <;> simp

/-- C4: `isCacheValid` is false while `lastSuccessfulFetch` is absent;
otherwise, for a validated retention of `hours ≥ 1`, it is true iff
`now - lastSuccessfulFetch < hours * 3600000` milliseconds: true at the
instant of the successful fetch, false once the age reaches the window. -/
theorem isCacheValid_spec (config : Config) (now : Int) (s : Snapshot) (hours : Int)
    (hcfg : config.offlineRetentionHours = .finite (hours : ℚ)) (hmin : 1 ≤ hours) :
    (s.lastSuccessfulFetch = none → isCacheValid config now s = false) ∧
      (∀ t, s.lastSuccessfulFetch = some t →
        (isCacheValid config now s = true ↔ now - t < hours * 3600000) ∧
        isCacheValid config t s = true ∧
        (hours * 3600000 ≤ now - t → isCacheValid config now s = false)) := by
  refine ⟨isCacheValid_of_never config now s, ?_⟩
  intro t ht
  refine ⟨isCacheValid_iff config now t s hours hcfg ht, ?_, ?_⟩
  · rw [isCacheValid_iff config t t s hours hcfg ht]
    omega
  · intro hage
    have := isCacheValid_iff config now t s hours hcfg ht
    cases hv : isCacheValid config now s with
    | false => rfl
    | true =>
      have := this.mp hv
      omega

/-- C5: the `/healthz` handler answers 200 with status "healthy" iff
`isCacheValid()` is true or `events` is non-empty, and 503 with status
"unhealthy" otherwise; a snapshot holding an event is healthy even when
`isCacheValid()` is false. -/
theorem healthz_spec (config : Config) (now now2 : Int) (s : Snapshot) :
    (((healthz config now now2 s).statusCode = 200 ∧
        (healthz config now now2 s).status = "healthy") ↔
      (isCacheValid config now s = true ∨ 0 < s.events.length)) ∧
    (((healthz config now now2 s).statusCode = 503 ∧
        (healthz config now now2 s).status = "unhealthy") ↔
      ¬ (isCacheValid config now s = true ∨ 0 < s.events.length)) ∧
    (0 < s.events.length → isCacheValid config now s = false →
      (healthz config now now2 s).statusCode = 200 ∧
        (healthz config now now2 s).status = "healthy") := by
  by_cases h : isCacheValid config now s = true ∨ 0 < s.events.length
  · obtain ⟨h1, h2⟩ := healthz_of_healthy config now now2 s h
    refine ⟨⟨fun _ => h, fun _ => ⟨h1, h2⟩⟩, ⟨fun hh => ?_, fun hh => absurd h hh⟩,
      fun _ _ => ⟨h1, h2⟩⟩
    rw [h1] at hh
    exact absurd hh.1 (by decide)
  · obtain ⟨h1, h2⟩ := healthz_of_unhealthy config now now2 s h
    refine ⟨⟨fun hh => ?_, fun hh => absurd hh h⟩, ⟨fun _ => h, fun _ => ⟨h1, h2⟩⟩,
      fun hpos _ => absurd (Or.inr hpos) h⟩
    rw [h1] at hh
    exact absurd hh.1 (by decide)

/-- C10: as long as no attempt has succeeded, `lastSuccessfulFetch` is
absent, `events` is empty and `venue` is absent, so `/healthz` answers 503
"unhealthy" for every number of failed attempts and every clock value. -/
theorem healthz_unhealthy_before_first_success (config : Config) (attempts : List Attempt)
    (now now2 : Int) (h : ∀ a ∈ attempts, a.succeeds = false) :
    (runAttempts config cachedDataset attempts).lastSuccessfulFetch = none ∧
      (runAttempts config cachedDataset attempts).events = [] ∧
      (runAttempts config cachedDataset attempts).venue = none ∧
      (healthz config now now2 (runAttempts config cachedDataset attempts)).statusCode = 503 ∧
      (healthz config now now2 (runAttempts config cachedDataset attempts)).status =
        "unhealthy" := by
  obtain ⟨h1, h2, h3⟩ := runAttempts_all_failed config attempts h
  refine ⟨h1, h2, h3, ?_⟩
  apply healthz_of_unhealthy
  rw [isCacheValid_of_never config now _ h1, h2]
  simp

/-! ## The claim about the configuration -/

theorem coerceInteger_of_invalid (value fallback : JsNumber) (minimum : Int)
    (h : ∀ q, value = .finite q → ⌊q⌋ < minimum) :
    coerceInteger value fallback minimum = fallback := by
  cases value with
  | finite q =>
    have hq : q < (minimum : ℚ) := Int.floor_lt.mp (h q rfl)
    have hq2 : ((⌊q⌋ : Int) : ℚ) < (minimum : ℚ) := by exact_mod_cast h q rfl
    simp [coerceInteger, JsNumber.isFinite, JsNumber.floor, JsNumber.ltInt, hq2]
  | nan => simp [coerceInteger, JsNumber.isFinite]
  | posInf => simp [coerceInteger, JsNumber.isFinite]
  | negInf => simp [coerceInteger, JsNumber.isFinite]

theorem coerceInteger_of_valid (q : ℚ) (fallback : JsNumber) (minimum : Int)
    (h : minimum ≤ ⌊q⌋) :
    coerceInteger (.finite q) fallback minimum = .finite ((⌊q⌋ : Int) : ℚ) := by
  have hq2 : ¬ ((⌊q⌋ : Int) : ℚ) < (minimum : ℚ) := by
    rw [not_lt]
    exact_mod_cast h
  simp [coerceInteger, JsNumber.isFinite, JsNumber.floor, JsNumber.ltInt, hq2]

theorem coerceInteger_resolved (input : JsNumber) (minimum default : Int)
    (hd : minimum ≤ default) :
    ResolvedFrom input (coerceInteger input (.finite (default : ℚ)) minimum) minimum default := by
  by_cases h : ∀ q, input = .finite q → ⌊q⌋ < minimum
  · exact ⟨default, coerceInteger_of_invalid input _ minimum h, hd, fun _ => rfl⟩
  · push_neg at h
    obtain ⟨q, rfl, hq⟩ := h
    refine ⟨⌊q⌋, coerceInteger_of_valid q _ minimum hq, hq, ?_⟩
    intro hlt
    have := Int.floor_lt.mpr (hlt q rfl)
    omega

/-- C8: `coerceInteger` returns the fallback when the value is not a finite
number or its floor is below the minimum, and the floor of the value
otherwise; so whenever `validateConfiguration` completes, the settings are
integers with `fetchIntervalS ≥ 15`, `displayRotationS ≥ 5`,
`maxEventsDisplay ≥ 1`, `offlineRetentionHours ≥ 1` and `port ≥ 1`, each of
them its default (60, 10, 6, 24, 3000) when its input was not a finite
number or was below its minimum. -/
theorem validateConfiguration_numeric_settings (parseUrl : String → Option ParsedUrl)
    (config validated : Config) (h : validateConfiguration parseUrl config = some validated) :
    (∀ value fallback minimum, (∀ q, value = JsNumber.finite q → ⌊q⌋ < minimum) →
        coerceInteger value fallback minimum = fallback) ∧
      (∀ q fallback minimum, minimum ≤ ⌊q⌋ →
        coerceInteger (.finite q) fallback minimum = .finite ((⌊q⌋ : Int) : ℚ)) ∧
      ResolvedFrom config.fetchIntervalS validated.fetchIntervalS 15 60 ∧
      ResolvedFrom config.displayRotationS validated.displayRotationS 5 10 ∧
      ResolvedFrom config.maxEventsDisplay validated.maxEventsDisplay 1 6 ∧
      ResolvedFrom config.offlineRetentionHours validated.offlineRetentionHours 1 24 ∧
      ResolvedFrom config.port validated.port 1 3000 := by
  refine ⟨coerceInteger_of_invalid, coerceInteger_of_valid, ?_⟩
  unfold validateConfiguration at h
  simp only at h
  split at h
  · exact absurd h (by simp)
  · split at h
    · exact absurd h (by simp)
    · split at h
      · exact absurd h (by simp)
      · injection h with h
        subst h
        exact ⟨coerceInteger_resolved _ 15 60 (by decide),
          coerceInteger_resolved _ 5 10 (by decide),
          coerceInteger_resolved _ 1 6 (by decide),
          coerceInteger_resolved _ 1 24 (by decide),
          coerceInteger_resolved _ 1 3000 (by decide)⟩

theorem validateConfiguration_numeric_settings_witness :
    validateConfiguration sampleParseUrl sampleRawConfig = some sampleConfig ∧
      ResolvedFrom sampleRawConfig.fetchIntervalS sampleConfig.fetchIntervalS 15 60 ∧
      ResolvedFrom sampleRawConfig.displayRotationS sampleConfig.displayRotationS 5 10 ∧
      ResolvedFrom sampleRawConfig.port sampleConfig.port 1 3000 :=
  ⟨by decide,
    (validateConfiguration_numeric_settings sampleParseUrl sampleRawConfig sampleConfig
      (by decide)).2.2.1,
    (validateConfiguration_numeric_settings sampleParseUrl sampleRawConfig sampleConfig
      (by decide)).2.2.2.1,
    (validateConfiguration_numeric_settings sampleParseUrl sampleRawConfig sampleConfig
      (by decide)).2.2.2.2.2.2⟩

/-! ## Instances of the cache claims on sample inputs -/

theorem refreshEvents_failure_folds_into_snapshot_witness :
    sampleBadGateway.succeeds = false ∧ sampleTimeout.succeeds = false ∧
      (refreshEvents sampleConfig sampleBadGateway sampleSnapshot).errorCount = 1 ∧
      (refreshEvents sampleConfig sampleBadGateway sampleSnapshot).events =
        sampleSnapshot.events ∧
      (refreshEvents sampleConfig sampleTimeout
        (refreshEvents sampleConfig sampleBadGateway sampleSnapshot)).errorCount = 2 :=
  ⟨by decide, by decide,
    (refreshEvents_failure_folds_into_snapshot sampleConfig sampleBadGateway sampleTimeout
      sampleSnapshot (by decide) (by decide)).2.1,
    (refreshEvents_failure_folds_into_snapshot sampleConfig sampleBadGateway sampleTimeout
      sampleSnapshot (by decide) (by decide)).2.2.2.2.1,
    ((refreshEvents_failure_folds_into_snapshot sampleConfig sampleBadGateway sampleTimeout
      sampleSnapshot (by decide) (by decide)).2.2.2.2.2.2.2 rfl).2.1⟩

theorem refreshEvents_success_replaces_snapshot_witness :
    responseOk 200 = true ∧
      refreshEvents sampleConfig
          ⟨2000, .response 200 (.eventList [⟨some "/uploads/x.png", some 7, []⟩]),
            .response 404 none, 2001⟩
          (refreshEvents sampleConfig sampleBadGateway sampleSnapshot) =
        { events := sortEventsByTime
            (hydrateMediaUrls sampleConfig.controllerBaseUrl [⟨some "/uploads/x.png", some 7, []⟩])
          venue := fetchVenue sampleConfig (.response 404 none)
          fetchedAt := some 2000
          lastSuccessfulFetch := some 2000
          isOffline := false
          errorCount := 0 } :=
  ⟨by decide,
    (refreshEvents_success_replaces_snapshot sampleConfig
      (refreshEvents sampleConfig sampleBadGateway sampleSnapshot) 2000 2001 200
      [⟨some "/uploads/x.png", some 7, []⟩] (.response 404 none) (by decide)).1⟩

theorem isCacheValid_spec_witness :
    sampleConfig.offlineRetentionHours = .finite ((24 : Int) : ℚ) ∧ (1 : Int) ≤ 24 ∧
      (isCacheValid sampleConfig 86400499 sampleSnapshot = true ↔
        (86400499 : Int) - 500 < 24 * 3600000) ∧
      isCacheValid sampleConfig 500 sampleSnapshot = true :=
  ⟨by decide, by decide,
    ((isCacheValid_spec sampleConfig 86400499 sampleSnapshot 24 (by decide) (by decide)).2
      500 rfl).1,
    ((isCacheValid_spec sampleConfig 86400499 sampleSnapshot 24 (by decide) (by decide)).2
      500 rfl).2.1⟩

theorem healthz_unhealthy_before_first_success_witness :
    (∀ a ∈ [sampleBadGateway, sampleTimeout], a.succeeds = false) ∧
      (runAttempts sampleConfig cachedDataset
        [sampleBadGateway, sampleTimeout]).lastSuccessfulFetch = none ∧
      (healthz sampleConfig 99000 99001
        (runAttempts sampleConfig cachedDataset
          [sampleBadGateway, sampleTimeout])).statusCode = 503 :=
  ⟨by decide,
    (healthz_unhealthy_before_first_success sampleConfig [sampleBadGateway, sampleTimeout]
      99000 99001 (by decide)).1,
    (healthz_unhealthy_before_first_success sampleConfig [sampleBadGateway, sampleTimeout]
      99000 99001 (by decide)).2.2.2.1⟩

/-! ## The claim about media URLs -/

theorem startsWith_iff (s pre : String) :
    startsWith s pre = true ↔ ∃ tail : String, s = pre ++ tail := by
  unfold startsWith
  rw [List.isPrefixOf_iff_prefix]
  constructor
  · rintro ⟨t, ht⟩
    refine ⟨⟨t⟩, ?_⟩
    apply String.ext
    rw [String.data_append, ht]
  · rintro ⟨tail, rfl⟩
    exact ⟨tail.data, by rw [String.data_append]⟩

theorem hydrateEvent_fields (controllerBaseUrl : String) (event : Event) :
    (hydrateEvent controllerBaseUrl event).startDatetime = event.startDatetime ∧
      (hydrateEvent controllerBaseUrl event).rest = event.rest := by
  unfold hydrateEvent
  split
  · split <;> exact ⟨rfl, rfl⟩
  · exact ⟨rfl, rfl⟩

theorem hydrateEvent_of_upload (controllerBaseUrl : String) (event : Event) (tail : String)
    (h : event.imageUrl = some ("/uploads/" ++ tail)) :
    (hydrateEvent controllerBaseUrl event).imageUrl =
      some (controllerBaseUrl ++ ("/uploads/" ++ tail)) := by
  have hs : startsWith ("/uploads/" ++ tail) "/uploads/" = true :=
    (startsWith_iff _ _).mpr ⟨tail, rfl⟩
  have hne : ("/uploads/" ++ tail) ≠ "" := by
    intro he
    have := congrArg String.length he
    simp [String.length_append] at this
    exact absurd this.1 (by decide)
  simp [hydrateEvent, h, hs, hne]

theorem hydrateEvent_of_other (controllerBaseUrl : String) (event : Event)
    (h : ∀ tail, event.imageUrl ≠ some ("/uploads/" ++ tail)) :
    hydrateEvent controllerBaseUrl event = event := by
  unfold hydrateEvent
  split
  · next url hurl =>
    split
    · next hcond =>
      obtain ⟨tail, rfl⟩ := (startsWith_iff _ _).mp hcond.2
      exact absurd hurl (h tail)
    · rfl
  · rfl

/-- C6: `hydrateMediaUrls` returns a list of the same length and order; an
event whose `imageUrl` begins with "/uploads/" gets the base URL followed by
that reference as its `imageUrl` and keeps its other fields, and every other
event (no `imageUrl`, an empty one, or one that does not begin with
"/uploads/") is returned unchanged: "/uploads/x.png" becomes the base URL
followed by "/uploads/x.png", and "https://cdn/y.png" stays as it is. -/
theorem hydrateMediaUrls_spec (controllerBaseUrl : String) (events : List Event) :
    (hydrateMediaUrls controllerBaseUrl events).length = events.length ∧
      (∀ (i : Nat) (event : Event), events[i]? = some event →
        ∃ hydrated : Event, (hydrateMediaUrls controllerBaseUrl events)[i]? = some hydrated ∧
          hydrated.startDatetime = event.startDatetime ∧ hydrated.rest = event.rest ∧
          (∀ tail, event.imageUrl = some ("/uploads/" ++ tail) →
            hydrated.imageUrl = some (controllerBaseUrl ++ ("/uploads/" ++ tail))) ∧
          ((∀ tail, event.imageUrl ≠ some ("/uploads/" ++ tail)) → hydrated = event) ∧
          (event.imageUrl = none → hydrated = event) ∧
          (event.imageUrl = some "" → hydrated = event)) ∧
      (∀ (start start2 : Option Int) (rest rest2 : Fields),
        hydrateMediaUrls controllerBaseUrl
            [⟨some "/uploads/x.png", start, rest⟩, ⟨some "https://cdn/y.png", start2, rest2⟩] =
          [⟨some (controllerBaseUrl ++ "/uploads/x.png"), start, rest⟩,
            ⟨some "https://cdn/y.png", start2, rest2⟩]) := by
  refine ⟨by simp [hydrateMediaUrls], ?_, ?_⟩
  · intro i event hi
    refine ⟨hydrateEvent controllerBaseUrl event, by simp [hydrateMediaUrls, hi],
      (hydrateEvent_fields _ _).1, (hydrateEvent_fields _ _).2,
      fun tail h => hydrateEvent_of_upload _ _ tail h,
      hydrateEvent_of_other _ _, ?_, ?_⟩
    · intro h
      simp [hydrateEvent, h]
    · intro h
      simp [hydrateEvent, h]
  · intro start start2 rest rest2
    have h1 : startsWith "/uploads/x.png" "/uploads/" = true := by decide
    have h2 : startsWith "https://cdn/y.png" "/uploads/" = false := by decide
    simp [hydrateMediaUrls, hydrateEvent, h1, h2]

/-! ## The claim about the order of events -/

/-- On events with valid start times 3, 1, 2 and 1 the result is ordered
ascending by start time, the two events that start at 1 in the order in which
they came. -/
theorem sortEventsByTime_sample :
    sortEventsByTime sampleStarts =
        [⟨none, some 1, [("title", "\"a\"")]⟩, ⟨none, some 1, [("title", "\"d\"")]⟩,
          ⟨none, some 2, [("title", "\"b\"")]⟩, ⟨none, some 3, [("title", "\"c\"")]⟩] ∧
      AscendingByStart (sortEventsByTime sampleStarts) := by
  decide

/-- C7 does not hold of the code: with an event whose start time is not a
valid date between one that starts at 3 and one that starts at 1, the
comparator answers NaN for both neighbouring pairs, the three events are
taken for one ascending run and returned in the order in which they came,
and the event that starts at 3 stays ahead of the one that starts at 1. -/
theorem sortEventsByTime_not_ascending :
    sortEventsByTime sampleUnparsedStart = sampleUnparsedStart ∧
      ¬ AscendingByStart (sortEventsByTime sampleUnparsedStart) := by
  decide

/-- With the invalid start time in third place the descending run of the
first two events is reversed, the third event is left where it is, and the
last one is put where the binary search sends it: start times 2, 1, invalid,
0 come out as 0, 1, 2, invalid, and start times 1, 0, invalid, 0 as 0, 0, 1,
invalid, the event that came last behind the other one that starts at 0. -/
theorem sortEventsByTime_unparsed_third :
    sortEventsByTime sampleUnparsedThird =
        [⟨none, some 0, [("title", "\"e3\"")]⟩, ⟨none, some 1, [("title", "\"e1\"")]⟩,
          ⟨none, some 2, [("title", "\"e0\"")]⟩, ⟨none, none, [("title", "\"e2\"")]⟩] ∧
      sortEventsByTime
          [⟨none, some 1, [("title", "\"e0\"")]⟩, ⟨none, some 0, [("title", "\"e1\"")]⟩,
            ⟨none, none, [("title", "\"e2\"")]⟩, ⟨none, some 0, [("title", "\"e3\"")]⟩] =
        [⟨none, some 0, [("title", "\"e1\"")]⟩, ⟨none, some 0, [("title", "\"e3\"")]⟩,
          ⟨none, some 1, [("title", "\"e0\"")]⟩, ⟨none, none, [("title", "\"e2\"")]⟩] := by
  decide

/-! ## The claim about the key file -/

theorem all_whitespace_of_jsTrim_eq_empty (s : String) (h : jsTrim s = "") :
    ∀ c ∈ s.data, isJsWhitespace c = true := by
  have h1 : ((s.data.dropWhile isJsWhitespace).reverse.dropWhile isJsWhitespace).reverse = [] :=
    congrArg String.data h
  rw [List.reverse_eq_nil_iff, List.dropWhile_eq_nil_iff] at h1
  have h2 : s.data.dropWhile isJsWhitespace = [] := by
    by_contra hne
    have hhead := List.head_dropWhile_not isJsWhitespace s.data hne
    have hmem : (s.data.dropWhile isJsWhitespace).head hne ∈
        (s.data.dropWhile isJsWhitespace).reverse :=
      List.mem_reverse.mpr (List.head_mem hne)
    rw [h1 _ hmem] at hhead
    exact absurd hhead (by simp)
  exact List.dropWhile_eq_nil_iff.mp h2

theorem jsTrim_envLine_ne (key value : String) : jsTrim (envLine key value) ≠ "" := by
  intro h
  have hall := all_whitespace_of_jsTrim_eq_empty _ h '=' (by simp [envLine, String.data_append])
  exact absurd hall (by decide)

theorem filterWithIndex_last (lines : List String) :
    filterWithIndex
        (fun line index => !(decide (index = lines.length - 1) && decide (jsTrim line = "")))
        lines =
      dropTrailingBlank lines := by
  rcases List.eq_nil_or_concat lines with rfl | ⟨init, last, rfl⟩
  · rfl
  · rw [List.concat_eq_append]
    have hkeep : (init.enum.filter (fun p : Nat × String =>
        !(decide (p.1 = (init ++ [last]).length - 1) && decide (jsTrim p.2 = "")))) =
        init.enum := by
      rw [List.filter_eq_self]
      intro p hp
      have hlt := List.fst_lt_of_mem_enum hp
      have hne : p.1 ≠ init.length := by omega
      simp [hne]
    unfold filterWithIndex dropTrailingBlank
    rw [List.enum_append, List.filter_append, hkeep, List.map_append, List.enum_map_snd,
      List.getLast?_concat]
    by_cases hb : jsTrim last = ""
    · simp [List.enumFrom, hb]
    · simp [List.enumFrom, hb]

theorem map_replace_of_absent (lines : List String) (key value : String)
    (h : ∀ line ∈ lines, startsWith line (key ++ "=") = false) :
    lines.map (fun line => if startsWith line (key ++ "=") then key ++ "=" ++ value else line) =
      lines := by
  induction lines with
  | nil => rfl
  | cons l ls ih =>
    rw [List.map_cons, ih (fun line hl => h line (by simp [hl])), h l (by simp)]
    simp

/-- C9, as the code has it: `upsertEnvVar` splits the content at each LF or
CRLF; when no line starts with `key=` the output is all those lines, in
order, followed by the line `key=value`; otherwise every line that starts
with `key=` is replaced by `key=value`, the others stay as they are and in
place, and the last line is dropped when it is blank; the lines are joined
with "\n" and one "\n" is put at the end. -/
theorem upsertEnvVar_spec (content key value : String) :
    ((∀ line ∈ splitLines content, startsWith line (key ++ "=") = false) →
        upsertEnvVar content key value =
          joinLines (splitLines content ++ [envLine key value]) ++ "\n") ∧
      ((∃ line ∈ splitLines content, startsWith line (key ++ "=") = true) →
        upsertEnvVar content key value =
          joinLines (dropTrailingBlank ((splitLines content).map (fun line =>
            if startsWith line (key ++ "=") = true then envLine key value else line))) ++
            "\n") := by
  constructor
  · intro h
    have hany : (splitLines content).any (fun line => startsWith line (key ++ "=")) = false := by
      rw [List.any_eq_false]
      intro line hl
      simp [h line hl]
    unfold upsertEnvVar
    simp only [hany, filterWithIndex_last, map_replace_of_absent _ key value h]
    simp only [Bool.not_false, if_true]
    have hd : dropTrailingBlank (splitLines content ++ [key ++ "=" ++ value]) =
        splitLines content ++ [key ++ "=" ++ value] := by
      unfold dropTrailingBlank
      rw [List.getLast?_concat]
      simp only
      have hkv := jsTrim_envLine_ne key value
      unfold envLine at hkv
      rw [if_neg hkv]
    rw [hd]
    rfl
  · intro h
    have hany : (splitLines content).any (fun line => startsWith line (key ++ "=")) = true := by
      rw [List.any_eq_true]
      exact h
    unfold upsertEnvVar
    simp only [hany, filterWithIndex_last]
    rfl

theorem upsertEnvVar_spec_witness :
    (∀ line ∈ splitLines "PORT=3000\n", startsWith line ("CONTROLLER_API_KEY" ++ "=") = false) ∧
      upsertEnvVar "PORT=3000\n" "CONTROLLER_API_KEY" "abc" =
        joinLines (splitLines "PORT=3000\n" ++ [envLine "CONTROLLER_API_KEY" "abc"]) ++ "\n" ∧
      (∃ line ∈ splitLines "CONTROLLER_API_KEY=old\r\nPORT=3000\n",
        startsWith line ("CONTROLLER_API_KEY" ++ "=") = true) ∧
      upsertEnvVar "CONTROLLER_API_KEY=old\r\nPORT=3000\n" "CONTROLLER_API_KEY" "abc" =
        joinLines (dropTrailingBlank
          ((splitLines "CONTROLLER_API_KEY=old\r\nPORT=3000\n").map (fun line =>
            if startsWith line ("CONTROLLER_API_KEY" ++ "=") = true
            then envLine "CONTROLLER_API_KEY" "abc" else line))) ++ "\n" :=
  ⟨by decide,
    (upsertEnvVar_spec "PORT=3000\n" "CONTROLLER_API_KEY" "abc").1 (by decide),
    by decide,
    (upsertEnvVar_spec "CONTROLLER_API_KEY=old\r\nPORT=3000\n" "CONTROLLER_API_KEY" "abc").2
      (by decide)⟩

/-- C9 as stated fails: a file whose key line is followed by an empty line
keeps that empty line, so the output ends with two line terminators. -/
theorem upsertEnvVar_two_terminators :
    upsertEnvVar "CONTROLLER_API_KEY=old\n\n" "CONTROLLER_API_KEY" "abc" =
        "CONTROLLER_API_KEY=abc\n\n" ∧
      endsWithOneTerminator
        (upsertEnvVar "CONTROLLER_API_KEY=old\n\n" "CONTROLLER_API_KEY" "abc") = false := by
  decide

end Signage
